import Mathlib

/-!
Shallow embedding of the Algofusion deskew and confidence-estimation core.

Deskew side (src/ImageProcessing/endpoints/rotate.py and
src/ImageProcessing/utils/image_processing.py): line segments carry integer
endpoints; float arithmetic of the source (numpy atan2 / sqrt / degrees) is
modelled by exact real arithmetic.  The OpenCV primitives that the source
calls (image decoding, morphology, Canny+Hough detection, affine warp) are
not part of this repository, so they enter the model as function parameters;
everything the repository itself computes (angle formula, normalization,
horizontality test, longest-line selection, fallback, rotation angle, the
try/except response shaping) is transcribed directly from the Python source.

Confidence side (src/OCR/utils/confidence.py): per-step probability
distributions are modelled as functions from token id to the probability the
step assigns it (the source computes them as softmax of the step's logits and
then indexes by the chosen token id); text is modelled as a list of
characters.
-/

namespace Algofusion

/-- Two-argument arctangent, the model of numpy's arctan2.  Range (-pi, pi]. -/
noncomputable def atan2 (y x : ℝ) : ℝ :=
  if 0 < x then Real.arctan (y / x)
  else if x < 0 then
    (if 0 ≤ y then Real.arctan (y / x) + Real.pi else Real.arctan (y / x) - Real.pi)
  else
    (if 0 < y then Real.pi / 2 else if y < 0 then -(Real.pi / 2) else 0)

/-- Radians to degrees, the model of numpy's degrees. -/
noncomputable def degrees (r : ℝ) : ℝ := r * 180 / Real.pi

/-- Angle normalization from rotate.py lines 118-121 (and 201-204):
add 180 below -90, subtract 180 above 90. -/
noncomputable def normalizeAngle (angle : ℝ) : ℝ :=
  if angle < -90 then angle + 180
  else if angle > 90 then angle - 180
  else angle

/-- The angle rotate.py attributes to the segment (x1,y1)-(x2,y2)
(lines 113-121): dy = -(y2-y1), dx = x2-x1, angle = degrees(atan2(dy,dx)),
then normalized. -/
noncomputable def segmentAngle (x1 y1 x2 y2 : ℤ) : ℝ :=
  normalizeAngle (degrees (atan2 ((-(y2 - y1) : ℤ) : ℝ) (((x2 - x1) : ℤ) : ℝ)))

/-- A detected line segment with integer endpoints, as returned by
cv2.HoughLinesP in the source. -/
structure DetectedLine where
  x1 : ℤ
  y1 : ℤ
  x2 : ℤ
  y2 : ℤ
deriving DecidableEq

/-- Euclidean length of a segment, rotate.py line 110:
sqrt((x2-x1)^2 + (y2-y1)^2). -/
noncomputable def lineLength (s : DetectedLine) : ℝ :=
  Real.sqrt ((((s.x2 - s.x1) : ℤ) : ℝ) ^ 2 + (((s.y2 - s.y1) : ℤ) : ℝ) ^ 2)

/-- The normalized angle of a detected segment on the rotate-endpoint path. -/
noncomputable def lineAngle (s : DetectedLine) : ℝ :=
  segmentAngle s.x1 s.y1 s.x2 s.y2

/-- The angle computed by utils/image_processing.py line 98: atan2 is applied
to (y2-y1, x2-x1) WITHOUT flipping the y axis, unlike the rotate endpoint. -/
noncomputable def utilsAngle (s : DetectedLine) : ℝ :=
  normalizeAngle (degrees (atan2 (((s.y2 - s.y1) : ℤ) : ℝ) (((s.x2 - s.x1) : ℤ) : ℝ)))

/-- Horizontality test of rotate.py lines 137-142: threshold 20 degrees,
first on the angle itself, then on its distance from 180. -/
noncomputable def is_horizontal (angle : ℝ) : Bool :=
  if |angle| < 20 then true
  else if |(|angle| - 180)| < 20 then true
  else false

/-- Horizontality test of utils/image_processing.py line 107: threshold 15. -/
noncomputable def is_horizontal15 (angle : ℝ) : Bool :=
  if |angle| < 15 ∨ |(|angle| - 180)| < 15 then true else false

/-- One step of Python's max(key=length): keep the current best unless the
next element is strictly longer (max returns the first maximal element). -/
noncomputable def pickLonger (best t : DetectedLine) : DetectedLine :=
  if lineLength best < lineLength t then t else best

/-- Python's max(lines, key=length) (none on an empty list). -/
noncomputable def maxByLen : List DetectedLine → Option DetectedLine
  | [] => none
  | s :: rest => some (List.foldl pickLonger s rest)

/-- Line selection of rotate.py lines 156-216: filter horizontal lines and
take the longest (fallback flag false); if none is horizontal, take the
longest line overall and mark the fallback (the 'warning' key in line_info);
none when there are no lines at all. -/
noncomputable def selectLine (lines : List DetectedLine) : Option (DetectedLine × Bool) :=
  match maxByLen (lines.filter fun s => is_horizontal (lineAngle s)) with
  | some c => some (c, false)
  | none =>
    match maxByLen lines with
    | some c => some (c, true)
    | none => none

/-- The rotation angle rotate.py derives from the selection:
rotation_angle = -detected_angle, and 0.0 when nothing was selected. -/
noncomputable def rotationAngleOf (lines : List DetectedLine) : ℝ :=
  match selectLine lines with
  | some p => -(lineAngle p.1)
  | none => 0

/-- The response dictionary of the /rotate endpoint, restricted to the fields
the specification talks about.  line_info records the chosen segment and
whether the non-horizontal fallback produced it. -/
structure RotateResponse (Img : Type) where
  rotated_image : Option Img
  rotation_angle : ℝ
  line_info : Option (DetectedLine × Bool)
  success : Bool
  error : Option String

/-- Body of rotate_image_endpoint (rotate.py lines 27-257), before the
enclosing try/except.  decode models cv2.imdecode (none = undecodable bytes),
morph the morphological close/open pre-pass, detect the grayscale/blur/
Canny/HoughLinesP chain, warp the getRotationMatrix2D+warpAffine rotation of
an image by an angle.  The body saves the original image first (line 58),
runs detection on the (optionally morphed) copy, and always warps the
original image (line 227). -/
noncomputable def rotate_body (Img : Type) (decode : List ℕ → Option Img)
    (morph : Img → Img) (detect : Img → List DetectedLine) (warp : Img → ℝ → Img)
    (contents : List ℕ) (use_morphology : Bool) : Except String (RotateResponse Img) :=
  if contents.length = 0 then Except.error "empty file"
  else
    match decode contents with
    | none => Except.error "cannot decode image"
    | some original_img =>
      let img := if use_morphology then morph original_img else original_img
      let lines := detect img
      let sel := selectLine lines
      let rotation_angle : ℝ :=
        match sel with
        | some p => -(lineAngle p.1)
        | none => 0
      Except.ok ⟨some (warp original_img rotation_angle), rotation_angle, sel, true, none⟩

/-- rotate_image_endpoint with its catch-all except handler (rotate.py lines
259-274): every internal error is converted into a normally returned response
with success = false, null image and rotation 0; the endpoint itself never
lets an error escape. -/
noncomputable def rotate_image_endpoint (Img : Type) (decode : List ℕ → Option Img)
    (morph : Img → Img) (detect : Img → List DetectedLine) (warp : Img → ℝ → Img)
    (contents : List ℕ) (use_morphology : Bool) : Except String (RotateResponse Img) :=
  match rotate_body Img decode morph detect warp contents use_morphology with
  | Except.error e => Except.ok ⟨none, 0, none, false, some e⟩
  | Except.ok r => Except.ok r

/-- The dictionary find_longest_horizontal_line returns for the chosen line. -/
structure LineInfo where
  startPt : ℤ × ℤ
  endPt : ℤ × ℤ
  length : ℝ
  angle : ℝ

/-- find_longest_horizontal_line (utils/image_processing.py lines 46-129):
decode failure raises (Except.error, the re-raised ValueError); no lines or
no horizontal lines yield a normal none; otherwise the longest line that is
horizontal at the 15-degree threshold under the utils angle convention. -/
noncomputable def find_longest_horizontal_line (Img : Type) (decode : List ℕ → Option Img)
    (detect : Img → List DetectedLine) (image_bytes : List ℕ) :
    Except String (Option LineInfo) :=
  match decode image_bytes with
  | none => Except.error "cannot decode image"
  | some img =>
    let lines := detect img
    if lines.length = 0 then Except.ok none
    else
      match maxByLen (lines.filter fun s => is_horizontal15 (utilsAngle s)) with
      | none => Except.ok none
      | some c =>
        Except.ok (some ⟨(c.x1, c.y1), (c.x2, c.y2), lineLength c, utilsAngle c⟩)

/-- Probabilities collected by ConfidenceCalculator.calculate_from_logits:
for each generated token paired with a probability step, the probability the
step assigns to that token id, floored at 0.01.  List.zip truncates at the
shorter list, exactly like the `if i >= len(scores): break` in the source. -/
noncomputable def collectedTokenConfidences (generated_ids : List ℕ)
    (sc : List (ℕ → ℝ)) (input_length : ℕ) : List ℝ :=
  ((generated_ids.drop input_length).zip sc).map fun p => max (p.2 p.1) 0.01

/-- ConfidenceCalculator.calculate_from_logits (confidence.py lines 21-75).
Each element of scores models one step's softmax distribution as a function
from token id to probability.  Returns the aggregate confidence and the
per-token list, like the Python tuple. -/
noncomputable def calculate_from_logits (generated_ids : List ℕ)
    (scores : Option (List (ℕ → ℝ))) (input_length : ℕ) : ℝ × List ℝ :=
  match scores with
  | none => (0.5, [])
  | some sc =>
    if sc.length = 0 then (0.5, [])
    else
      let token_confidences := collectedTokenConfidences generated_ids sc input_length
      if token_confidences.isEmpty then (0.5, [])
      else
        (Real.exp ((token_confidences.map Real.log).sum / (token_confidences.length : ℝ)),
         token_confidences)

/-- The token-confidence value as the specification words it: 0.5 when the
trace is absent or nothing is collected, otherwise the geometric mean
(exp of the mean log) of the clamped per-token probabilities. -/
noncomputable def tokenConfidenceSpec (generated_ids : List ℕ)
    (scores : Option (List (ℕ → ℝ))) (input_length : ℕ) : ℝ :=
  match scores with
  | none => 0.5
  | some sc =>
    let ps := collectedTokenConfidences generated_ids sc input_length
    if ps.isEmpty then 0.5
    else Real.exp ((ps.map Real.log).sum / (ps.length : ℝ))

/-- Python str.strip: drop whitespace from both ends.  Python classifies
whitespace by a Unicode table that lives outside this repository (it also
strips \x0b, \x0c and Unicode spaces), so the whitespace test is a parameter
of the model. -/
def pyStrip (isSpace : Char → Bool) (s : List Char) : List Char :=
  ((s.dropWhile isSpace).reverse.dropWhile isSpace).reverse

/-- Number of leading characters equal to c. -/
def leadingCount (c : Char) : List Char → ℕ
  | [] => 0
  | x :: xs => if x = c then leadingCount c xs + 1 else 0

/-- Model of re.search(r'(.)\x5c1\x7b4,\x7d', text): some character OTHER
THAN a newline occurs at least 5 times consecutively (one occurrence captured
by the dot, followed by 4 or more backreference repeats).  Python's regex dot
does not match a newline without re.DOTALL, so a run of newlines can never be
captured and never triggers the penalty. -/
def hasRepeatRun : List Char → Bool
  | [] => false
  | c :: rest =>
    (decide (c ≠ '\n') && decide (4 ≤ leadingCount c rest)) || hasRepeatRun rest

/-- The repetition test as the frozen claim words it: ANY character, the
newline included, occurring at least 5 times consecutively. -/
def hasAnyRepeatRun : List Char → Bool
  | [] => false
  | c :: rest => decide (4 ≤ leadingCount c rest) || hasAnyRepeatRun rest

/-- Count of alphanumeric-or-whitespace characters,
confidence.py line 107: sum(c.isalnum() or c.isspace() for c in text).
Python's str.isalnum and str.isspace consult Unicode tables external to this
repository (e.g. Cyrillic letters are alphanumeric), so both classifiers are
parameters of the model. -/
def alnumSpaceCount (isAlnum isSpace : Char → Bool) (s : List Char) : ℕ :=
  (s.filter fun c => isAlnum c || isSpace c).length

/-- The multiplicative chain of calculate_heuristic (confidence.py lines
93-116) on the already-stripped text: base 0.7, length penalty, repetition
penalty, character-quality scaling, small-image penalty — before the final
clamp. -/
noncomputable def heuristicCore (isAlnum isSpace : Char → Bool)
    (text : List Char) (width height : ℕ) : ℝ :=
  let c1 : ℝ := 0.7
  let c2 := if text.length < 10 then c1 * 0.7
            else if 5000 < text.length then c1 * 0.9 else c1
  let c3 := if hasRepeatRun text then c2 * 0.6 else c2
  let c4 := if 0 < text.length then
              c3 * (0.5 + ((alnumSpaceCount isAlnum isSpace text : ℝ) /
                (text.length : ℝ)) * 0.5)
            else c3
  if width * height < 50000 then c4 * 0.85 else c4

/-- ConfidenceCalculator.calculate_heuristic (confidence.py lines 77-119):
0.1 on empty stripped text, otherwise the factor chain clamped to [0,1].
The Unicode character classifiers of Python are passed in as parameters. -/
noncomputable def calculate_heuristic (isAlnum isSpace : Char → Bool)
    (text : List Char) (image_size : ℕ × ℕ) : ℝ :=
  if (pyStrip isSpace text).isEmpty then 0.1
  else max 0 (min 1 (heuristicCore isAlnum isSpace (pyStrip isSpace text)
    image_size.1 image_size.2))

/-- calculate_heuristic without its final clamp to [0,1]. -/
noncomputable def calculate_heuristic_raw (isAlnum isSpace : Char → Bool)
    (text : List Char) (image_size : ℕ × ℕ) : ℝ :=
  if (pyStrip isSpace text).isEmpty then 0.1
  else heuristicCore isAlnum isSpace (pyStrip isSpace text) image_size.1 image_size.2

/-- The length factor as the specification words it. -/
noncomputable def lengthFactor (t : List Char) : ℝ :=
  if t.length < 10 then 0.7 else if 5000 < t.length then 0.9 else 1

/-- The degenerate-repetition factor with the regex's newline exclusion. -/
noncomputable def repeatFactor (t : List Char) : ℝ :=
  if hasRepeatRun t then 0.6 else 1

/-- The degenerate-repetition factor as the frozen claim words it: a run of
any 5 identical consecutive characters, the newline included, is penalized. -/
noncomputable def repeatFactorClaim (t : List Char) : ℝ :=
  if hasAnyRepeatRun t then 0.6 else 1

/-- The character-quality factor as the specification words it. -/
noncomputable def qualityFactor (isAlnum isSpace : Char → Bool) (t : List Char) : ℝ :=
  0.5 + ((alnumSpaceCount isAlnum isSpace t : ℝ) / (t.length : ℝ)) * 0.5

/-- The small-image factor as the specification words it. -/
noncomputable def areaFactor (width height : ℕ) : ℝ :=
  if width * height < 50000 then 0.85 else 1

/-- The heuristic score as amended: 0.1 on empty trimmed text, else
clamp(0.7 * lengthFactor * repeatFactor * qualityFactor * areaFactor) to
[0,1], where the repetition factor carries the regex's newline exclusion. -/
noncomputable def heuristicSpec (isAlnum isSpace : Char → Bool)
    (text : List Char) (width height : ℕ) : ℝ :=
  if (pyStrip isSpace text).isEmpty then 0.1
  else
    max 0 (min 1 (0.7 * lengthFactor (pyStrip isSpace text) *
      repeatFactor (pyStrip isSpace text) *
      qualityFactor isAlnum isSpace (pyStrip isSpace text) * areaFactor width height))

/-- The heuristic score exactly as the frozen claim words it, with the
repetition penalty applying to ANY run of 5 identical consecutive
characters, the newline included. -/
noncomputable def heuristicClaimFormula (isAlnum isSpace : Char → Bool)
    (text : List Char) (width height : ℕ) : ℝ :=
  if (pyStrip isSpace text).isEmpty then 0.1
  else
    max 0 (min 1 (0.7 * lengthFactor (pyStrip isSpace text) *
      repeatFactorClaim (pyStrip isSpace text) *
      qualityFactor isAlnum isSpace (pyStrip isSpace text) * areaFactor width height))

/-- A 15-character text whose only repeated run is five newlines in a row:
letters on either side, no leading or trailing whitespace.  Every character
is ASCII, so Lean's ASCII classifiers agree with Python's Unicode ones on
this input. -/
def newlineRunText : List Char :=
  ['a', 'b', 'c', 'd', 'e', '\n', '\n', '\n', '\n', '\n', 'f', 'g', 'h', 'i', 'j']

/-- ConfidenceCalculator.combine_confidences (confidence.py lines 121-137). -/
noncomputable def combine_confidences (token_confidence : Option ℝ)
    (heuristic_confidence : ℝ) (has_token_scores : Bool) : ℝ :=
  match has_token_scores, token_confidence with
  | true, some t => 0.7 * t + 0.3 * heuristic_confidence
  | _, _ => heuristic_confidence

/-! ### Angle lemmas -/

/-- atan2 takes values in (-pi, pi], like numpy's arctan2. -/
theorem atan2_mem_Ioc (y x : ℝ) : -Real.pi < atan2 y x ∧ atan2 y x ≤ Real.pi := by
  have hpi : 0 < Real.pi := Real.pi_pos
  have h1 : Real.arctan (y / x) < Real.pi / 2 := Real.arctan_lt_pi_div_two _
  have h2 : -(Real.pi / 2) < Real.arctan (y / x) := Real.neg_pi_div_two_lt_arctan _
  unfold atan2
  split_ifs with hx hx' hy hy' hy''
  · constructor <;> linarith
  · have hdiv : y / x ≤ 0 := div_nonpos_iff.mpr (Or.inl ⟨hy, hx'.le⟩)
    have h3 : Real.arctan (y / x) ≤ 0 := by
      have := Real.arctan_strictMono.monotone hdiv
      simpa [Real.arctan_zero] using this
    constructor <;> linarith
  · have hy2 : y < 0 := lt_of_not_le hy
    have hdiv : 0 < y / x := div_pos_iff.mpr (Or.inr ⟨hy2, hx'⟩)
    have h3 : 0 < Real.arctan (y / x) := by
      have := Real.arctan_strictMono hdiv
      simpa [Real.arctan_zero] using this
    constructor <;> linarith
  · constructor <;> linarith
  · constructor <;> linarith
  · constructor <;> linarith

/-- Converting a value of (-pi, pi] to degrees lands in (-180, 180]. -/
theorem degrees_mem_Ioc (t : ℝ) (h1 : -Real.pi < t) (h2 : t ≤ Real.pi) :
    -180 < degrees t ∧ degrees t ≤ 180 := by
  have hpi : 0 < Real.pi := Real.pi_pos
  have hk : (0 : ℝ) < 180 / Real.pi := by positivity
  have e1 : -Real.pi * (180 / Real.pi) = -180 := by field_simp; ring
  have e2 : Real.pi * (180 / Real.pi) = 180 := by field_simp
  constructor
  · have := mul_lt_mul_of_pos_right h1 hk
    rw [e1] at this
    calc (-180 : ℝ) < t * (180 / Real.pi) := this
    _ = degrees t := by unfold degrees; ring
  · have := mul_le_mul_of_nonneg_right h2 hk.le
    rw [e2] at this
    calc degrees t = t * (180 / Real.pi) := by unfold degrees; ring
    _ ≤ 180 := this

/-- Normalization sends (-180, 180] into [-90, 90]. -/
theorem normalizeAngle_mem_Icc (a : ℝ) (h1 : -180 < a) (h2 : a ≤ 180) :
    -90 ≤ normalizeAngle a ∧ normalizeAngle a ≤ 90 := by
  unfold normalizeAngle
  split_ifs with hlt hgt
  · constructor <;> linarith
  · constructor <;> linarith
  · constructor <;> linarith

/-- The normalized segment angle lies in the closed interval [-90, 90]. -/
theorem segmentAngle_mem_Icc (x1 y1 x2 y2 : ℤ) :
    -90 ≤ segmentAngle x1 y1 x2 y2 ∧ segmentAngle x1 y1 x2 y2 ≤ 90 := by
  have h := atan2_mem_Ioc ((-(y2 - y1) : ℤ) : ℝ) (((x2 - x1) : ℤ) : ℝ)
  have h' := degrees_mem_Ioc _ h.1 h.2
  exact normalizeAngle_mem_Icc _ h'.1 h'.2

/-- atan2 of a negative value over zero is -pi/2 (straight down). -/
theorem atan2_neg_zero (y : ℝ) (hy : y < 0) : atan2 y 0 = -(Real.pi / 2) := by
  unfold atan2
  rw [if_neg (lt_irrefl 0), if_neg (lt_irrefl 0), if_neg (not_lt.mpr hy.le), if_pos hy]

/-- A strictly descending vertical segment (x1 = x2, y1 < y2, so the segment
points downward on the screen) gets angle exactly -90 on the rotate path. -/
theorem segmentAngle_vertical_down (x y1 y2 : ℤ) (h : y1 < y2) :
    segmentAngle x y1 x y2 = -90 := by
  unfold segmentAngle
  have hx : (((x - x) : ℤ) : ℝ) = 0 := by push_cast; ring
  have h' : (y1 : ℝ) < (y2 : ℝ) := by exact_mod_cast h
  have hy : ((-(y2 - y1) : ℤ) : ℝ) < 0 := by push_cast; linarith
  rw [hx, atan2_neg_zero _ hy]
  have hdeg : degrees (-(Real.pi / 2)) = -90 := by
    unfold degrees
    field_simp
    ring
  rw [hdeg]
  unfold normalizeAngle
  rw [if_neg (by norm_num), if_neg (by norm_num)]

/-- Claim C1 (amended): on the rotate-endpoint path the angle of every
segment equals degrees(atan2(-(y2-y1), x2-x1)) normalized by adding 180 below
-90 and subtracting 180 above 90, and the normalized angle lies in the CLOSED
interval [-90, 90]. -/
theorem segment_angle_convention (x1 y1 x2 y2 : ℤ) :
    segmentAngle x1 y1 x2 y2 =
      normalizeAngle (degrees (atan2 ((-(y2 - y1) : ℤ) : ℝ) (((x2 - x1) : ℤ) : ℝ))) ∧
    -90 ≤ segmentAngle x1 y1 x2 y2 ∧ segmentAngle x1 y1 x2 y2 ≤ 90 :=
  ⟨rfl, (segmentAngle_mem_Icc x1 y1 x2 y2).1, (segmentAngle_mem_Icc x1 y1 x2 y2).2⟩

/-- Claim C1 counterexample: the vertical segment (0,0)-(0,1) receives the
normalized angle -90, which does NOT lie in the half-open interval (-90, 90]
the claim asserts. -/
theorem segment_angle_not_in_Ioc :
    segmentAngle 0 0 0 1 = -90 ∧ ¬(-90 < segmentAngle 0 0 0 1) := by
  have h := segmentAngle_vertical_down 0 0 1 (by norm_num)
  exact ⟨h, by rw [h]; norm_num⟩

/-- Unfolding of the horizontality test of the rotate endpoint. -/
theorem is_horizontal_iff (a : ℝ) :
    is_horizontal a = true ↔ (|a| < 20 ∨ |(|a| - 180)| < 20) := by
  unfold is_horizontal
  split_ifs with h1 h2
  · simp [h1]
  · simp [h2]
  · simp [h1, h2]

/-- Claim C2: on the rotate-endpoint path a segment is classified horizontal
iff abs(angle) < 20 or abs(abs(angle) - 180) < 20 — the threshold is 20
degrees — and, since normalized angles lie in [-90, 90], the second disjunct
never fires, so the classification is exactly abs(angle) < 20. -/
theorem horizontal_classification (x1 y1 x2 y2 : ℤ) :
    (is_horizontal (segmentAngle x1 y1 x2 y2) = true ↔
      (|segmentAngle x1 y1 x2 y2| < 20 ∨ |(|segmentAngle x1 y1 x2 y2| - 180)| < 20)) ∧
    (is_horizontal (segmentAngle x1 y1 x2 y2) = true ↔
      |segmentAngle x1 y1 x2 y2| < 20) := by
  set a := segmentAngle x1 y1 x2 y2 with ha
  have hrange := segmentAngle_mem_Icc x1 y1 x2 y2
  have habs : |a| ≤ 90 := abs_le.mpr ⟨hrange.1, hrange.2⟩
  have h180 : |(|a| - 180)| = 180 - |a| := by
    rw [abs_of_nonpos (by linarith)]
    ring
  have hno : ¬(|(|a| - 180)| < 20) := by
    rw [h180]
    linarith
  refine ⟨is_horizontal_iff a, ?_⟩
  rw [is_horizontal_iff a]
  constructor
  · rintro (h | h)
    · exact h
    · exact absurd h hno
  · exact fun h => Or.inl h

/-! ### Longest-line selection lemmas -/

/-- The foldl of pickLonger stays at the start value or lands in the list. -/
theorem foldl_pickLonger_mem (l : List DetectedLine) (a : DetectedLine) :
    List.foldl pickLonger a l = a ∨ List.foldl pickLonger a l ∈ l := by
  induction l generalizing a with
  | nil => exact Or.inl rfl
  | cons b t ih =>
    simp only [List.foldl_cons]
    rcases ih (pickLonger a b) with h | h
    · rw [h]
      unfold pickLonger
      split_ifs
      · exact Or.inr (List.mem_cons_self _ _)
      · exact Or.inl rfl
    · exact Or.inr (List.mem_cons_of_mem _ h)

/-- The foldl of pickLonger is at least as long as its start value. -/
theorem le_foldl_pickLonger_init (l : List DetectedLine) (a : DetectedLine) :
    lineLength a ≤ lineLength (List.foldl pickLonger a l) := by
  induction l generalizing a with
  | nil => simp
  | cons b t ih =>
    simp only [List.foldl_cons]
    refine le_trans ?_ (ih (pickLonger a b))
    unfold pickLonger
    split_ifs with h
    · exact h.le
    · exact le_refl _

/-- The foldl of pickLonger is at least as long as every list element. -/
theorem le_foldl_pickLonger_mem (l : List DetectedLine) (a : DetectedLine) :
    ∀ s ∈ l, lineLength s ≤ lineLength (List.foldl pickLonger a l) := by
  induction l generalizing a with
  | nil => simp
  | cons b t ih =>
    intro s hs
    simp only [List.foldl_cons]
    rcases List.mem_cons.mp hs with rfl | hs'
    · refine le_trans ?_ (le_foldl_pickLonger_init t (pickLonger a s))
      unfold pickLonger
      split_ifs with h
      · exact le_refl _
      · exact not_lt.mp h
    · exact ih (pickLonger a b) s hs'

/-- maxByLen returns a member of the list. -/
theorem maxByLen_mem {l : List DetectedLine} {c : DetectedLine}
    (h : maxByLen l = some c) : c ∈ l := by
  cases l with
  | nil => simp [maxByLen] at h
  | cons a t =>
    simp only [maxByLen, Option.some.injEq] at h
    rcases foldl_pickLonger_mem t a with h' | h'
    · rw [← h, h']
      exact List.mem_cons_self _ _
    · rw [← h]
      exact List.mem_cons_of_mem _ h'

/-- maxByLen returns a longest element. -/
theorem maxByLen_isMax {l : List DetectedLine} {c : DetectedLine}
    (h : maxByLen l = some c) : ∀ s ∈ l, lineLength s ≤ lineLength c := by
  cases l with
  | nil => simp [maxByLen] at h
  | cons a t =>
    simp only [maxByLen, Option.some.injEq] at h
    intro s hs
    rcases List.mem_cons.mp hs with rfl | hs'
    · rw [← h]
      exact le_foldl_pickLonger_init t s
    · rw [← h]
      exact le_foldl_pickLonger_mem t a s hs'

/-- maxByLen is none exactly on the empty list. -/
theorem maxByLen_eq_none_iff (l : List DetectedLine) :
    maxByLen l = none ↔ l = [] := by
  cases l <;> simp [maxByLen]

/-- A non-empty list has a maxByLen. -/
theorem maxByLen_of_ne_nil {l : List DetectedLine} (h : l ≠ []) :
    ∃ c, maxByLen l = some c := by
  cases hm : maxByLen l with
  | none => exact absurd ((maxByLen_eq_none_iff l).mp hm) h
  | some c => exact ⟨c, rfl⟩

/-- Claim C3: on every non-empty segment list, the selection returns some
segment c with a fallback flag, the rotation angle is -angle(c); when a
horizontal segment exists c is a longest horizontal one and the fallback flag
is clear; when none is horizontal c is the longest segment overall and the
fallback flag is set; and a set fallback flag implies no horizontal candidate
existed. -/
theorem selection_rule (lines : List DetectedLine) (hne : lines ≠ []) :
    ∃ c fb, selectLine lines = some (c, fb) ∧ c ∈ lines ∧
      rotationAngleOf lines = -(lineAngle c) ∧
      ((∃ s ∈ lines, is_horizontal (lineAngle s) = true) →
        fb = false ∧ is_horizontal (lineAngle c) = true ∧
          ∀ s ∈ lines, is_horizontal (lineAngle s) = true → lineLength s ≤ lineLength c) ∧
      ((∀ s ∈ lines, is_horizontal (lineAngle s) = false) →
        fb = true ∧ ∀ s ∈ lines, lineLength s ≤ lineLength c) ∧
      (fb = true → ∀ s ∈ lines, is_horizontal (lineAngle s) = false) := by
  cases hmax : maxByLen (lines.filter fun s => is_horizontal (lineAngle s)) with
  | some c =>
    have hmem := maxByLen_mem hmax
    have hcl : c ∈ lines := (List.mem_filter.mp hmem).1
    have hch : is_horizontal (lineAngle c) = true := (List.mem_filter.mp hmem).2
    refine ⟨c, false, ?_, hcl, ?_, ?_, ?_, ?_⟩
    · unfold selectLine
      rw [hmax]
    · unfold rotationAngleOf selectLine
      rw [hmax]
    · intro _
      refine ⟨rfl, hch, fun s hs hsh => ?_⟩
      exact maxByLen_isMax hmax s (List.mem_filter.mpr ⟨hs, hsh⟩)
    · intro hall
      exact absurd hch (by simp [hall c hcl])
    · intro hfb
      exact absurd hfb (by simp)
  | none =>
    have hfilter : lines.filter (fun s => is_horizontal (lineAngle s)) = [] :=
      (maxByLen_eq_none_iff _).mp hmax
    have hnone : ∀ s ∈ lines, is_horizontal (lineAngle s) = false := by
      intro s hs
      have := List.filter_eq_nil_iff.mp hfilter s hs
      simpa using this
    obtain ⟨c, hc⟩ := maxByLen_of_ne_nil hne
    refine ⟨c, true, ?_, maxByLen_mem hc, ?_, ?_, ?_, ?_⟩
    · unfold selectLine
      rw [hmax, hc]
    · unfold rotationAngleOf selectLine
      rw [hmax, hc]
    · rintro ⟨s, hs, hsh⟩
      exact absurd hsh (by simp [hnone s hs])
    · intro _
      exact ⟨rfl, maxByLen_isMax hc⟩
    · intro _
      exact hnone

/-- The rotate-path classifier rejects the angle -90. -/
theorem is_horizontal_neg90 : is_horizontal (-90 : ℝ) = false := by
  have habs : |(-90 : ℝ)| = 90 := by
    rw [abs_of_nonpos (by norm_num : (-90 : ℝ) ≤ 0)]
    norm_num
  unfold is_horizontal
  split_ifs with h1 h2
  · rw [habs] at h1
    norm_num at h1
  · rw [habs] at h2
    rw [show |(90 : ℝ) - 180| = 90 by rw [abs_of_nonpos (by norm_num)]; norm_num] at h2
    norm_num at h2
  · rfl

/-- Concrete length: the vertical 200-pixel segment. -/
theorem lineLength_v200 : lineLength (DetectedLine.mk 0 0 0 200) = 200 := by
  unfold lineLength
  norm_num
  rw [show (40000 : ℝ) = 200 ^ 2 by norm_num]
  exact Real.sqrt_sq (by norm_num)

/-- Concrete length: the vertical 50-pixel segment. -/
theorem lineLength_v50 : lineLength (DetectedLine.mk 0 0 0 50) = 50 := by
  unfold lineLength
  norm_num
  rw [show (2500 : ℝ) = 50 ^ 2 by norm_num]
  exact Real.sqrt_sq (by norm_num)

/-- Claim C3 witness: on the two vertical (hence non-horizontal) segments of
length 200 and 50, the list is non-empty, the concrete selection is the
200-pixel segment with the fallback flag set, and the selection rule applies. -/
theorem selection_rule_witness :
    (([DetectedLine.mk 0 0 0 200, DetectedLine.mk 0 0 0 50] : List DetectedLine) ≠ []) ∧
    selectLine [DetectedLine.mk 0 0 0 200, DetectedLine.mk 0 0 0 50] =
      some (DetectedLine.mk 0 0 0 200, true) ∧
    (∃ c fb, selectLine [DetectedLine.mk 0 0 0 200, DetectedLine.mk 0 0 0 50] =
        some (c, fb) ∧
      c ∈ [DetectedLine.mk 0 0 0 200, DetectedLine.mk 0 0 0 50] ∧
      rotationAngleOf [DetectedLine.mk 0 0 0 200, DetectedLine.mk 0 0 0 50] =
        -(lineAngle c) ∧
      ((∃ s ∈ [DetectedLine.mk 0 0 0 200, DetectedLine.mk 0 0 0 50],
          is_horizontal (lineAngle s) = true) →
        fb = false ∧ is_horizontal (lineAngle c) = true ∧
          ∀ s ∈ [DetectedLine.mk 0 0 0 200, DetectedLine.mk 0 0 0 50],
            is_horizontal (lineAngle s) = true → lineLength s ≤ lineLength c) ∧
      ((∀ s ∈ [DetectedLine.mk 0 0 0 200, DetectedLine.mk 0 0 0 50],
          is_horizontal (lineAngle s) = false) →
        fb = true ∧ ∀ s ∈ [DetectedLine.mk 0 0 0 200, DetectedLine.mk 0 0 0 50],
          lineLength s ≤ lineLength c) ∧
      (fb = true → ∀ s ∈ [DetectedLine.mk 0 0 0 200, DetectedLine.mk 0 0 0 50],
        is_horizontal (lineAngle s) = false)) := by
  have hA : lineAngle (DetectedLine.mk 0 0 0 200) = -90 :=
    segmentAngle_vertical_down 0 0 200 (by norm_num)
  have hB : lineAngle (DetectedLine.mk 0 0 0 50) = -90 :=
    segmentAngle_vertical_down 0 0 50 (by norm_num)
  have hH1 : is_horizontal (lineAngle (DetectedLine.mk 0 0 0 200)) = false := by
    rw [hA]; exact is_horizontal_neg90
  have hH2 : is_horizontal (lineAngle (DetectedLine.mk 0 0 0 50)) = false := by
    rw [hB]; exact is_horizontal_neg90
  refine ⟨by simp, ?_, selection_rule _ (by simp)⟩
  have hfil : List.filter (fun s => is_horizontal (lineAngle s))
      [DetectedLine.mk 0 0 0 200, DetectedLine.mk 0 0 0 50] = [] := by
    simp [List.filter_cons, hH1, hH2]
  have hpick : pickLonger (DetectedLine.mk 0 0 0 200) (DetectedLine.mk 0 0 0 50) =
      DetectedLine.mk 0 0 0 200 := by
    unfold pickLonger
    rw [lineLength_v200, lineLength_v50, if_neg (by norm_num)]
  unfold selectLine
  rw [hfil]
  simp [maxByLen, List.foldl, hpick]

/-! ### Token-confidence theorems -/

/-- Claim C4: the aggregate token confidence is 0.5 with no probability trace
(or when nothing gets collected) and otherwise the geometric mean of the
clamped per-token probabilities; the number of collected tokens is exactly
min(number of generated tokens, number of probability steps), so extra
generated tokens beyond the trace are silently ignored. -/
theorem token_confidence_formula (ids : List ℕ) (scores : Option (List (ℕ → ℝ)))
    (L : ℕ) :
    (calculate_from_logits ids scores L).1 = tokenConfidenceSpec ids scores L ∧
    (calculate_from_logits ids none L).1 = 0.5 ∧
    (∀ sc : List (ℕ → ℝ),
      (collectedTokenConfidences ids sc L).length = min (ids.length - L) sc.length) := by
  refine ⟨?_, rfl, ?_⟩
  · cases scores with
    | none => rfl
    | some sc =>
      cases sc with
      | nil =>
        simp [calculate_from_logits, tokenConfidenceSpec, collectedTokenConfidences]
      | cons d ds =>
        simp only [calculate_from_logits, tokenConfidenceSpec]
        rw [if_neg (by simp)]
        split_ifs <;> simp
  · intro sc
    simp [collectedTokenConfidences]

/-! ### Combiner theorem -/

/-- Claim C6: the combiner returns 0.7 * token + 0.3 * heuristic exactly when
token scores are available and present, and the heuristic value unmodified
otherwise; in particular combine(0.9, 0.3, true) = 0.72. -/
theorem combiner_rule :
    (∀ t h : ℝ, combine_confidences (some t) h true = 0.7 * t + 0.3 * h) ∧
    (∀ (h : ℝ) (b : Bool), combine_confidences none h b = h) ∧
    (∀ (t : Option ℝ) (h : ℝ), combine_confidences t h false = h) ∧
    combine_confidences (some 0.9) 0.3 true = 0.72 := by
  refine ⟨fun t h => rfl, fun h b => ?_, fun t h => ?_, ?_⟩
  · cases b <;> rfl
  · cases t <;> rfl
  · show (0.7 : ℝ) * 0.9 + 0.3 * 0.3 = 0.72
    norm_num

/-! ### Heuristic-confidence theorems -/

/-- The sequential multiplicative chain of the source equals the product of
the four named factors. -/
theorem heuristicCore_eq_prod (isAlnum isSpace : Char → Bool) (t : List Char)
    (ht : t ≠ []) (w h : ℕ) :
    heuristicCore isAlnum isSpace t w h =
      0.7 * lengthFactor t * repeatFactor t * qualityFactor isAlnum isSpace t *
        areaFactor w h := by
  have hpos : 0 < t.length := List.length_pos.mpr ht
  simp only [heuristicCore, lengthFactor, repeatFactor, qualityFactor, areaFactor,
    if_pos hpos]
  split_ifs <;> ring

/-- Claim C5 (amended): for every Unicode classifier pair, the heuristic
confidence is 0.1 on empty trimmed text and otherwise the clamped product of
the base 0.7 with the length, repetition, character-quality and image-area
factors — where the repetition penalty fires only on runs of 5 or more
identical consecutive characters OTHER than the newline, because Python's
regex dot does not match a newline. -/
theorem heuristic_formula (isAlnum isSpace : Char → Bool) (text : List Char)
    (w h : ℕ) :
    calculate_heuristic isAlnum isSpace text (w, h) =
      heuristicSpec isAlnum isSpace text w h := by
  simp only [calculate_heuristic, heuristicSpec]
  split_ifs with hs
  · rfl
  · have ht : pyStrip isSpace text ≠ [] := fun h0 => hs (by simp [h0])
    rw [heuristicCore_eq_prod _ _ _ ht]

/-- Claim C5 counterexample: on the 15-character ASCII text whose only
repeated run is five consecutive newlines (with ample image area), the
program applies NO repetition penalty and computes 0.7, because the regex
dot cannot capture a newline — while the claim's formula, which penalizes
any run of 5 identical consecutive characters, computes 0.7 * 0.6 = 0.42.
Every character of the input is ASCII, so Lean's ASCII classifiers coincide
with Python's Unicode ones here. -/
theorem heuristic_newline_run_divergence :
    calculate_heuristic Char.isAlphanum Char.isWhitespace newlineRunText
      (300, 200) = 0.7 ∧
    heuristicClaimFormula Char.isAlphanum Char.isWhitespace newlineRunText
      300 200 = 0.42 ∧
    calculate_heuristic Char.isAlphanum Char.isWhitespace newlineRunText
      (300, 200) ≠
      heuristicClaimFormula Char.isAlphanum Char.isWhitespace newlineRunText
        300 200 := by
  have hstrip : pyStrip Char.isWhitespace newlineRunText = newlineRunText := by decide
  have hlen : newlineRunText.length = 15 := by decide
  have hrep : hasRepeatRun newlineRunText = false := by decide
  have hany : hasAnyRepeatRun newlineRunText = true := by decide
  have hcnt : alnumSpaceCount Char.isAlphanum Char.isWhitespace newlineRunText = 15 := by
    decide
  have hprog : calculate_heuristic Char.isAlphanum Char.isWhitespace newlineRunText
      (300, 200) = 0.7 := by
    simp only [calculate_heuristic, hstrip]
    rw [if_neg (by decide : ¬(newlineRunText.isEmpty = true))]
    simp only [heuristicCore, hlen, hrep, hcnt]
    norm_num [min_def, max_def]
  have hclaim : heuristicClaimFormula Char.isAlphanum Char.isWhitespace newlineRunText
      300 200 = 0.42 := by
    simp only [heuristicClaimFormula, hstrip]
    rw [if_neg (by decide : ¬(newlineRunText.isEmpty = true))]
    simp only [lengthFactor, repeatFactorClaim, qualityFactor, areaFactor,
      hlen, hany, hcnt]
    norm_num [min_def, max_def]
  refine ⟨hprog, hclaim, ?_⟩
  rw [hprog, hclaim]
  norm_num

/-- The length factor lies in (0, 1]. -/
theorem lengthFactor_bounds (t : List Char) : 0 < lengthFactor t ∧ lengthFactor t ≤ 1 := by
  unfold lengthFactor
  split_ifs <;> norm_num

/-- The repetition factor lies in (0, 1]. -/
theorem repeatFactor_bounds (t : List Char) : 0 < repeatFactor t ∧ repeatFactor t ≤ 1 := by
  unfold repeatFactor
  split_ifs <;> norm_num

/-- The image-area factor lies in (0, 1]. -/
theorem areaFactor_bounds (w h : ℕ) : 0 < areaFactor w h ∧ areaFactor w h ≤ 1 := by
  unfold areaFactor
  split_ifs <;> norm_num

/-- The character-quality factor lies in [0.5, 1] on non-empty text, for
every classifier pair. -/
theorem qualityFactor_bounds (isAlnum isSpace : Char → Bool) (t : List Char)
    (ht : t ≠ []) :
    0.5 ≤ qualityFactor isAlnum isSpace t ∧ qualityFactor isAlnum isSpace t ≤ 1 := by
  have hpos : 0 < t.length := List.length_pos.mpr ht
  have hposR : (0 : ℝ) < (t.length : ℝ) := by exact_mod_cast hpos
  have hcnt : alnumSpaceCount isAlnum isSpace t ≤ t.length :=
    (List.filter_sublist t).length_le
  have h0 : (0 : ℝ) ≤ (alnumSpaceCount isAlnum isSpace t : ℝ) / (t.length : ℝ) := by
    positivity
  have h1 : (alnumSpaceCount isAlnum isSpace t : ℝ) / (t.length : ℝ) ≤ 1 := by
    rw [div_le_one hposR]
    exact_mod_cast hcnt
  unfold qualityFactor
  constructor <;> nlinarith

/-- The pre-clamp heuristic chain lies in (0, 0.7] on non-empty text. -/
theorem heuristicCore_bounds (isAlnum isSpace : Char → Bool) (t : List Char)
    (ht : t ≠ []) (w h : ℕ) :
    0 < heuristicCore isAlnum isSpace t w h ∧
      heuristicCore isAlnum isSpace t w h ≤ 0.7 := by
  obtain ⟨hL0, hL1⟩ := lengthFactor_bounds t
  obtain ⟨hR0, hR1⟩ := repeatFactor_bounds t
  obtain ⟨hQh, hQ1⟩ := qualityFactor_bounds isAlnum isSpace t ht
  have hQ0 : 0 < qualityFactor isAlnum isSpace t := lt_of_lt_of_le (by norm_num) hQh
  obtain ⟨hA0, hA1⟩ := areaFactor_bounds w h
  rw [heuristicCore_eq_prod isAlnum isSpace t ht w h]
  constructor
  · exact mul_pos (mul_pos (mul_pos (mul_pos (by norm_num) hL0) hR0) hQ0) hA0
  · calc 0.7 * lengthFactor t * repeatFactor t * qualityFactor isAlnum isSpace t *
        areaFactor w h
        ≤ 0.7 * lengthFactor t * repeatFactor t * qualityFactor isAlnum isSpace t :=
          mul_le_of_le_one_right
            (le_of_lt (mul_pos (mul_pos (mul_pos (by norm_num) hL0) hR0) hQ0)) hA1
    _ ≤ 0.7 * lengthFactor t * repeatFactor t :=
          mul_le_of_le_one_right
            (le_of_lt (mul_pos (mul_pos (by norm_num) hL0) hR0)) hQ1
    _ ≤ 0.7 * lengthFactor t :=
          mul_le_of_le_one_right (le_of_lt (mul_pos (by norm_num) hL0)) hR1
    _ ≤ 0.7 := mul_le_of_le_one_right (by norm_num) hL1

/-- Claim C10: for every Unicode classifier pair, the heuristic confidence
always lies in (0, 0.7], and the final clamp to [0, 1] never alters the
value — the clamped and unclamped computations agree everywhere. -/
theorem heuristic_range_clamp_free (isAlnum isSpace : Char → Bool)
    (text : List Char) (w h : ℕ) :
    0 < calculate_heuristic isAlnum isSpace text (w, h) ∧
    calculate_heuristic isAlnum isSpace text (w, h) ≤ 0.7 ∧
    calculate_heuristic isAlnum isSpace text (w, h) =
      calculate_heuristic_raw isAlnum isSpace text (w, h) := by
  simp only [calculate_heuristic, calculate_heuristic_raw]
  split_ifs with hs
  · norm_num
  · have ht : pyStrip isSpace text ≠ [] := fun h0 => hs (by simp [h0])
    obtain ⟨hc0, hc7⟩ := heuristicCore_bounds isAlnum isSpace (pyStrip isSpace text) ht w h
    have hmin : min 1 (heuristicCore isAlnum isSpace (pyStrip isSpace text) w h) =
        heuristicCore isAlnum isSpace (pyStrip isSpace text) w h :=
      min_eq_right (by linarith)
    have hmax : max 0 (min 1 (heuristicCore isAlnum isSpace (pyStrip isSpace text) w h)) =
        heuristicCore isAlnum isSpace (pyStrip isSpace text) w h := by
      rw [hmin]
      exact max_eq_right (by linarith)
    rw [hmax]
    exact ⟨hc0, hc7, rfl⟩

/-! ### Endpoint theorems -/

/-- Claim C7: whenever the input decodes, the endpoint succeeds and its
output image is the warp of the ORIGINAL decoded image by the computed
rotation angle — for both values of use_morphology.  The morphology pre-pass
enters only through the detection input (and hence the angle), never through
the warped pixels. -/
theorem rotate_warps_original (Img : Type) (decode : List ℕ → Option Img)
    (morph : Img → Img) (detect : Img → List DetectedLine) (warp : Img → ℝ → Img)
    (contents : List ℕ) (um : Bool) (img : Img)
    (hdec : decode contents = some img) (hne : contents.length ≠ 0) :
    ∃ r : RotateResponse Img,
      rotate_image_endpoint Img decode morph detect warp contents um = Except.ok r ∧
      r.rotated_image = some (warp img r.rotation_angle) ∧
      r.rotation_angle = rotationAngleOf (detect (if um then morph img else img)) ∧
      r.success = true := by
  simp only [rotate_image_endpoint, rotate_body, hdec, if_neg hne]
  refine ⟨_, rfl, rfl, ?_, rfl⟩
  unfold rotationAngleOf
  rfl

/-- Claim C8: if detection finds zero segments on the (possibly morphed)
image, the endpoint returns rotation angle 0.0, no line selection, and —
given that warping by angle 0 is the identity, the behaviour of an affine
warp with the identity matrix — the original image itself. -/
theorem blank_image_identity (Img : Type) (decode : List ℕ → Option Img)
    (morph : Img → Img) (detect : Img → List DetectedLine) (warp : Img → ℝ → Img)
    (contents : List ℕ) (um : Bool) (img : Img)
    (hdec : decode contents = some img) (hne : contents.length ≠ 0)
    (hdet : detect (if um then morph img else img) = [])
    (hwarp : warp img 0 = img) :
    rotate_image_endpoint Img decode morph detect warp contents um =
      Except.ok ⟨some img, 0, none, true, none⟩ := by
  simp only [rotate_image_endpoint, rotate_body, hdec, if_neg hne, hdet]
  simp [selectLine, maxByLen, List.filter, hwarp]

/-- Claim C9 counterexample: with an undecodable input the endpoint does NOT
propagate an error — it returns a normal (Except.ok) response with
success = false, so decode failure is converted into a returned result. -/
theorem decode_error_returned_not_raised :
    rotate_image_endpoint Unit (fun _ => none) (fun i => i) (fun _ => [])
      (fun i _ => i) [0] false =
      Except.ok ⟨none, 0, none, false, some "cannot decode image"⟩ ∧
    ∀ e, rotate_image_endpoint Unit (fun _ => none) (fun i => i) (fun _ => [])
      (fun i _ => i) [0] false ≠ Except.error e := by
  have hmain : rotate_image_endpoint Unit (fun _ => none) (fun i => i) (fun _ => [])
      (fun i _ => i) [0] false =
      Except.ok ⟨none, 0, none, false, some "cannot decode image"⟩ := rfl
  refine ⟨hmain, fun e h => ?_⟩
  rw [hmain] at h
  exact Except.noConfusion h

/-- Claim C9 (amended): a decode failure raises an error that propagates out
of find_longest_horizontal_line, but the rotate endpoint catches it and
converts it into a normally returned response with success = false, no image
and rotation 0 — it is never converted into a successful result and never
propagates out of the endpoint. -/
theorem decode_failure_handling :
    (∀ (Img : Type) (decode : List ℕ → Option Img) (detect : Img → List DetectedLine)
        (bytes : List ℕ), decode bytes = none →
      find_longest_horizontal_line Img decode detect bytes =
        Except.error "cannot decode image") ∧
    (∀ (Img : Type) (decode : List ℕ → Option Img) (morph : Img → Img)
        (detect : Img → List DetectedLine) (warp : Img → ℝ → Img)
        (contents : List ℕ) (um : Bool), decode contents = none →
      ∃ e, rotate_image_endpoint Img decode morph detect warp contents um =
        Except.ok ⟨none, 0, none, false, some e⟩) := by
  constructor
  · intro Img decode detect bytes hdec
    unfold find_longest_horizontal_line
    rw [hdec]
  · intro Img decode morph detect warp contents um hdec
    unfold rotate_image_endpoint rotate_body
    by_cases hc : contents.length = 0
    · rw [if_pos hc]
      exact ⟨"empty file", rfl⟩
    · rw [if_neg hc, hdec]
      exact ⟨"cannot decode image", rfl⟩

/-- Claim C7 witness: a concrete instantiation (decoded image 7, morphology
adds one, detector finds nothing, warp doubles) with use_morphology = true:
the hypotheses hold and the endpoint warps the original image 7, not the
morphed image 8. -/
theorem rotate_warps_original_witness :
    ((fun _ : List ℕ => some (7 : ℕ)) [1] = some 7) ∧ (([1] : List ℕ).length ≠ 0) ∧
    (∃ r : RotateResponse ℕ,
      rotate_image_endpoint ℕ (fun _ => some 7) (fun n => n + 1) (fun _ => [])
        (fun n _ => n * 2) [1] true = Except.ok r ∧
      r.rotated_image = some (7 * 2) ∧
      r.rotation_angle = rotationAngleOf [] ∧
      r.success = true) :=
  ⟨rfl, by decide,
    rotate_warps_original ℕ (fun _ => some 7) (fun n => n + 1) (fun _ => [])
      (fun n _ => n * 2) [1] true 7 rfl (by decide)⟩

/-- Claim C8 witness: a concrete instantiation (decoded image 5, detector
finds nothing, warp returns its image argument unchanged): the hypotheses
hold and the endpoint returns the original image with angle 0 and no
selection. -/
theorem blank_image_identity_witness :
    ((fun _ : List ℕ => some (5 : ℕ)) [1] = some 5) ∧ (([1] : List ℕ).length ≠ 0) ∧
    ((fun _ : ℕ => ([] : List DetectedLine)) (if false then (5 : ℕ) + 1 else 5) = []) ∧
    ((fun (n : ℕ) (_ : ℝ) => n) 5 0 = 5) ∧
    rotate_image_endpoint ℕ (fun _ => some 5) (fun n => n + 1) (fun _ => [])
      (fun n _ => n) [1] false = Except.ok ⟨some 5, 0, none, true, none⟩ :=
  ⟨rfl, by decide, rfl, rfl,
    blank_image_identity ℕ (fun _ => some 5) (fun n => n + 1) (fun _ => [])
      (fun n _ => n) [1] false 5 rfl (by decide) rfl rfl⟩

/-- Claim C9 witness: at a concrete always-failing decoder, the extraction
utility propagates the decode error while the endpoint returns a failed-but-
normal response. -/
theorem decode_failure_handling_witness :
    find_longest_horizontal_line Unit (fun _ => none) (fun _ => []) [0] =
      Except.error "cannot decode image" ∧
    ∃ e, rotate_image_endpoint Unit (fun _ => none) (fun i => i) (fun _ => [])
      (fun i _ => i) [0] false = Except.ok ⟨none, 0, none, false, some e⟩ :=
  ⟨decode_failure_handling.1 Unit (fun _ => none) (fun _ => []) [0] rfl,
   decode_failure_handling.2 Unit (fun _ => none) (fun i => i) (fun _ => [])
     (fun i _ => i) [0] false rfl⟩

end Algofusion
